import Mathlib

/-!
Verification of the numerical solver core of `vtoolbox/sdof.py`
(single-degree-of-freedom vibration toolbox).

The Python source is shallowly embedded: the state-space integrators
(`euler`, `rk4`) are translated as field-polymorphic functions so that the
doctest scenarios can be evaluated exactly over `ℚ` while the general
statements are proved over `ℝ`; the closed-form solvers (`analytical`,
`forced_analytical`, `euler_beam_modes`, `euler_beam_frf`) are translated
over `ℝ`, with `sp.sqrt`, `sp.sin`, ... becoming `Real.sqrt`, `Real.sin`, ...
and `np.arctan2 y x` becoming the argument of the complex number `x + y*I`.
Printing and plotting calls of the source are I/O and are not modelled.
-/

/-! ### The shared linear state-space model

`A = sp.array([[0, 1], [-k / m, -c / m]])`; `Amat m c k s` is `A @ s` for a
state `s = (x, v)`. -/

def Amat {α : Type} [Field α] (m c k : α) (s : α × α) : α × α :=
  (s.2, -(k / m) * s.1 - (c / m) * s.2)

/-! ### `euler` (lines 213-226): `x[i + 1] = x[i] + dt * A @ x[i]` -/

def eulerStep {α : Type} [Field α] (m c k dt : α) (s : α × α) : α × α :=
  s + dt • Amat m c k s

/-- The `i`-th row of the array `x` built by `euler`'s loop, starting from
`x[0] = x0, v0`. -/
def eulerX {α : Type} [Field α] (m c k x0 v0 dt : α) : ℕ → α × α
  | 0 => (x0, v0)
  | i + 1 => eulerStep m c k dt (eulerX m c k x0 v0 dt i)

/-- `euler` returns `t = sp.linspace(0, n * dt, n + 1)` and the `(n+1) × 2`
array `x`; both arrays are modelled as lists of their rows. -/
def euler {α : Type} [Field α] (m c k x0 v0 : α) (n : ℕ) (dt : α) :
    List α × List (α × α) :=
  ((List.range (n + 1)).map fun i => (i : α) * dt,
   (List.range (n + 1)).map (eulerX m c k x0 v0 dt))

/-! ### `rk4` (lines 264-279): classical four-stage Runge-Kutta -/

def rk4Step {α : Type} [Field α] (m c k dt : α) (s : α × α) : α × α :=
  let f : α × α → α × α := fun x_ => Amat m c k x_
  let k1 := dt • f s
  let k2 := dt • f (s + (2 : α)⁻¹ • k1)
  let k3 := dt • f (s + (2 : α)⁻¹ • k2)
  let k4 := dt • f (s + k3)
  s + (6 : α)⁻¹ • (k1 + (2 : α) • (k2 + k3) + k4)

/-- The `i`-th row of the array `x` built by `rk4`'s loop. -/
def rk4X {α : Type} [Field α] (m c k x0 v0 dt : α) : ℕ → α × α
  | 0 => (x0, v0)
  | i + 1 => rk4Step m c k dt (rk4X m c k x0 v0 dt i)

def rk4 {α : Type} [Field α] (m c k x0 v0 : α) (n : ℕ) (dt : α) :
    List α × List (α × α) :=
  ((List.range (n + 1)).map fun i => (i : α) * dt,
   (List.range (n + 1)).map (rk4X m c k x0 v0 dt))

/-- The four Runge-Kutta stage increments of `rk4`'s loop body:
`k1 = dt * f(x[i])`, `k2 = dt * f(x[i] + k1/2)`, `k3 = dt * f(x[i] + k2/2)`,
`k4 = dt * f(x[i] + k3)`, with `f(x_) = A @ x_`. -/
def rk4k1 {α : Type} [Field α] (m c k dt : α) (s : α × α) : α × α :=
  dt • Amat m c k s

def rk4k2 {α : Type} [Field α] (m c k dt : α) (s : α × α) : α × α :=
  dt • Amat m c k (s + (2 : α)⁻¹ • rk4k1 m c k dt s)

def rk4k3 {α : Type} [Field α] (m c k dt : α) (s : α × α) : α × α :=
  dt • Amat m c k (s + (2 : α)⁻¹ • rk4k2 m c k dt s)

def rk4k4 {α : Type} [Field α] (m c k dt : α) (s : α × α) : α × α :=
  dt • Amat m c k (s + rk4k3 m c k dt s)

/-! ### `analytical` (lines 138-174): closed-form free response

`np.arctan2 y x` is the angle of the point `(x, y)`, i.e. the argument of the
complex number `x + y*I`. -/

noncomputable def arctan2 (y x : ℝ) : ℝ :=
  Complex.arg ⟨x, y⟩

/-- Lines 150-153, the `zeta < 1` branch:
`A = np.sqrt(((v0 + zeta*w*x0)**2 + (x0*wd)**2) / wd**2)`,
`phi = np.arctan2(x0*wd, v0 + zeta*w*x0)`,
`x = A * np.exp(-zeta*w*t) * np.sin(wd*t + phi)`. -/
noncomputable def underdampedX (m c k x0 v0 t : ℝ) : ℝ :=
  let w := Real.sqrt (k / m)
  let zeta := c / (2 * w * m)
  let wd := w * Real.sqrt (1 - zeta ^ 2)
  let A := Real.sqrt (((v0 + zeta * w * x0) ^ 2 + (x0 * wd) ^ 2) / wd ^ 2)
  let phi := arctan2 (x0 * wd) (v0 + zeta * w * x0)
  A * Real.exp (-zeta * w * t) * Real.sin (wd * t + phi)

/-- Lines 157-162, the `zeta == 1` branch: `a1 = x0`, `a2 = v0 + w*x0`,
`x = (a1 + a2*t) * np.exp(-w*t)`. -/
noncomputable def criticalX (m c k x0 v0 t : ℝ) : ℝ :=
  let w := Real.sqrt (k / m)
  let a1 := x0
  let a2 := v0 + w * x0
  (a1 + a2 * t) * Real.exp (-w * t)

/-- Lines 164-172, the `zeta > 1` branch. -/
noncomputable def overdampedX (m c k x0 v0 t : ℝ) : ℝ :=
  let w := Real.sqrt (k / m)
  let zeta := c / (2 * w * m)
  let a1 := (-v0 + (-zeta + Real.sqrt (zeta ^ 2 - 1)) * w * x0) /
    (2 * w * Real.sqrt (zeta ^ 2 - 1))
  let a2 := (v0 + (zeta + Real.sqrt (zeta ^ 2 - 1)) * w * x0) /
    (2 * w * Real.sqrt (zeta ^ 2 - 1))
  Real.exp (-zeta * w * t) *
    (a1 * Real.exp (-w * Real.sqrt (zeta ^ 2 - 1) * t) +
      a2 * Real.exp (w * Real.sqrt (zeta ^ 2 - 1) * t))

/-- `analytical` computes `w = np.sqrt(k/m)`, `zeta = c/(2*w*m)` and branches
on the damping regime; the displacement at time `t`. -/
noncomputable def analytical (m c k x0 v0 t : ℝ) : ℝ :=
  let w := Real.sqrt (k / m)
  let zeta := c / (2 * w * m)
  if zeta < 1 then underdampedX m c k x0 v0 t
  else if zeta = 1 then criticalX m c k x0 v0 t
  else overdampedX m c k x0 v0 t

/-- The amplitude `A` computed on line 151 of `analytical` (underdamped
branch): `A = np.sqrt(((v0 + zeta*w*x0)**2 + (x0*wd)**2) / wd**2)`. -/
noncomputable def analytical_A (m c k x0 v0 : ℝ) : ℝ :=
  let w := Real.sqrt (k / m)
  let zeta := c / (2 * w * m)
  let wd := w * Real.sqrt (1 - zeta ^ 2)
  Real.sqrt (((v0 + zeta * w * x0) ^ 2 + (x0 * wd) ^ 2) / wd ^ 2)

/-- The amplitude `A` computed on lines 52-55 of `free_response`:
`A = sp.sqrt(x0**2 + (v0 + omega*zeta*x0)**2 / omega_d**2)`. -/
noncomputable def free_response_A (m c k x0 v0 : ℝ) : ℝ :=
  let omega := Real.sqrt (k / m)
  let zeta := c / 2 / omega / m
  let omega_d := omega * Real.sqrt (1 - zeta ^ 2)
  Real.sqrt (x0 ^ 2 + (v0 + omega * zeta * x0) ^ 2 / omega_d ^ 2)

/-! ### `forced_analytical` (lines 651-690): undamped sinusoidally-forced
response, `x` as a function of time (the time grid
`sp.linspace(0, tf, tf/0.000125)` only selects sample times). -/

noncomputable def forced_analytical (m k x0 v0 wdr F0 t : ℝ) : ℝ :=
  let f0 := F0 / m
  let w := Real.sqrt (k / m)
  v0 / w * Real.sin (w * t) +
    (x0 - f0 / (w ^ 2 - wdr ^ 2)) * Real.cos (w * t) +
    f0 / (w ^ 2 - wdr ^ 2) * Real.cos (wdr * t)

/-! ### `euler_beam_modes` (lines 282-489)

`beamparams = [E I rho A L]`. The normalized length grid is
`len = sp.linspace(0, 1, npoints)`, i.e. `len j = j / (npoints - 1)`.
A request `n` is either a scalar count (`sp.arange(n) + 1 = [1..n]`) or an
explicit list of mode indices used as given; `Bnl`, `w` and the columns of
`U` are indexed by the *position* `i` in that request list, and the source's
low-mode root tables are read at that position (`Bnl[i] = Bnllow[i]`), not at
the requested mode index. Out-of-range table reads raise in the source; they
are modelled by the default value 0 (no claim depends on them). -/

structure BeamParams where
  E : ℝ
  I : ℝ
  rho : ℝ
  A : ℝ
  L : ℝ

noncomputable def lenGrid (npoints : ℕ) (j : ℕ) : ℝ :=
  (j : ℝ) / ((npoints : ℝ) - 1)

noncomputable def BnllowFF : List ℝ :=
  [0, 0, 4.73004074486, 7.8532046241, 10.995607838, 14.1371654913, 17.2787596574]

noncomputable def BnllowCF : List ℝ := [1.88, 4.69, 7.85, 10.99, 14.14]

noncomputable def BnllowCP : List ℝ := [3.93, 7.07, 10.21, 13.35, 16.49]

noncomputable def BnllowCS : List ℝ := [2.37, 5.5, 8.64, 11.78, 14.92]

noncomputable def BnllowCC : List ℝ := [4.73, 7.85, 11, 14.14, 17.28]

/-- The eigenvalue `Bnl[i]` for request position `i` holding mode index `ni`,
per boundary condition `bctype` (an unsupported `bctype` leaves the source's
`sp.empty` arrays untouched; modelled as 0). -/
noncomputable def beamBnl : ℕ → ℕ → ℕ → ℝ
  | 1, i, ni => if 7 < ni then (2 * (ni : ℝ) - 3) * Real.pi / 2 else BnllowFF.getD i 0
  | 2, i, ni => if 4 < ni then (2 * (ni : ℝ) - 1) * Real.pi / 2 else BnllowCF.getD i 0
  | 3, i, ni => if 4 < ni then (4 * (ni : ℝ) + 1) * Real.pi / 4 else BnllowCP.getD i 0
  | 4, i, ni => if 4 < ni then (4 * (ni : ℝ) - 1) * Real.pi / 4 else BnllowCS.getD i 0
  | 5, i, ni => if 4 < ni then (2 * (ni : ℝ) + 1) * Real.pi / 2 else BnllowCC.getD i 0
  | 6, _, ni => (ni : ℝ) * Real.pi
  | _, _, _ => 0

/-- `w[i] = (Bnl[i] ** 2) * sp.sqrt(E * I / (rho * A * L ** 4))`. -/
noncomputable def omegaOf (p : BeamParams) (B : ℝ) : ℝ :=
  B ^ 2 * Real.sqrt (p.E * p.I / (p.rho * p.A * p.L ^ 4))

/-- The natural frequency at request position `i`, mode index `ni`: the
free-free rigid-body modes `ni = 1, 2` have `w[i] = 0`. -/
noncomputable def beamW (p : BeamParams) (bctype i ni : ℕ) : ℝ :=
  if bctype = 1 ∧ (ni = 1 ∨ ni = 2) then 0
  else omegaOf p (beamBnl bctype i ni)

/-- The shape coefficient `sig` of each boundary condition. -/
noncomputable def beamSig : ℕ → ℝ → ℝ
  | 1, B => (Real.cosh B - Real.cos B) / (Real.sinh B - Real.sin B)
  | 2, B => (Real.sinh B - Real.sin B) / (Real.cosh B - Real.cos B)
  | 3, B => (Real.cosh B - Real.cos B) / (Real.sinh B - Real.sin B)
  | 4, B => (Real.sinh B + Real.sin B) / (Real.cosh B - Real.cos B)
  | 5, B => (Real.cosh B - Real.cos B) / (Real.sinh B - Real.sin B)
  | _, _ => 0

/-- The unnormalized mode-shape sample `U[j, i]` (request position `i`, mode
index `ni`, `j`-th point of the normalized length grid). -/
noncomputable def beamUraw (bctype i ni npoints j : ℕ) : ℝ :=
  let l := lenGrid npoints j
  let B := beamBnl bctype i ni
  let b := B * l
  match bctype with
  | 1 =>
    if ni = 1 then 1
    else if ni = 2 then l - 0.5
    else Real.cosh b + Real.cos b - beamSig 1 B * (Real.sinh b + Real.sin b)
  | 2 => Real.cosh b - Real.cos b - beamSig 2 B * (Real.sinh b - Real.sin b)
  | 3 => Real.cosh b - Real.cos b - beamSig 3 B * (Real.sinh b - Real.sin b)
  | 4 => Real.cosh b - Real.cos b - beamSig 4 B * (Real.sinh b - Real.sin b)
  | 5 => Real.cosh b - Real.cos b - beamSig 5 B * (Real.sinh b - Real.sin b)
  | 6 => Real.sin b
  | _ => 0

/-- The mass normalization of lines 432-434:
`U[:, i] = U[:, i] / sp.sqrt(sp.dot(U[:, i], U[:, i]) * rho * A * L)`. -/
noncomputable def beamUnorm (p : BeamParams) (bctype i ni npoints j : ℕ) : ℝ :=
  beamUraw bctype i ni npoints j /
    Real.sqrt ((∑ j' ∈ Finset.range npoints, beamUraw bctype i ni npoints j' ^ 2) *
      p.rho * p.A * p.L)

/-- Lines 326-330: a scalar request `n` becomes the index list `[1..n]`
(`sp.arange(n) + 1`); a list request is used as given. -/
def requestedIndices : ℕ ⊕ List ℕ → List ℕ
  | Sum.inl n => (List.range n).map (· + 1)
  | Sum.inr l => l

/-- `euler_beam_modes` returns `(w, x, U)`: the frequency array over request
positions, the physical position grid `x = len * L`, and the normalized
mode-shape matrix `U` (column = request position, row = grid point).
Arrays are modelled as functions of their index. -/
noncomputable def euler_beam_modes (n : ℕ ⊕ List ℕ) (bctype : ℕ) (p : BeamParams)
    (npoints : ℕ) : (ℕ → ℝ) × (ℕ → ℝ) × (ℕ → ℕ → ℝ) :=
  let ns := requestedIndices n
  (fun i => beamW p bctype i (ns.getD i 0),
   fun j => lenGrid npoints j * p.L,
   fun i j => beamUnorm p bctype i (ns.getD i 0) npoints j)

/-- The spec's words, for comparison with the source's normalization: the
"discrete quadrature approximation" of `∫ rho*A*U(x)^2 dx` over the `npoints`
uniformly sampled positions of `[0, L]` (spacing `L / (npoints - 1)`). -/
noncomputable def specMassQuadrature (p : BeamParams) (npoints : ℕ) (U : ℕ → ℝ) : ℝ :=
  p.rho * p.A * (∑ j ∈ Finset.range npoints, U j ^ 2) * (p.L / ((npoints : ℝ) - 1))

/-! ### `euler_beam_frf` (lines 492-556) -/

/-- The excitation frequency grid `w = sp.linspace(fmin, fmax, 2001) * 2 * sp.pi`
in rad/s. -/
noncomputable def freqGrid (fmin fmax : ℝ) (j : ℕ) : ℝ :=
  (fmin + (fmax - fmin) * (j : ℝ) / 2000) * (2 * Real.pi)

/-- The mode-accumulation loop of lines 511-528: with `i` modes computed so
far (the initial dummy `wn = sp.array((0, 0))` gives a last frequency of 0
when `i = 0`), the loop computes mode `i + 1` while the last computed mode's
natural frequency `wlast i` is below `thresh`; `fuel` bounds the iterations
(the source's arrays have 100 columns, an "arbitrarily large" cap). Returns
the number of modes computed. -/
noncomputable def frfNumModes (wlast : ℕ → ℝ) (thresh : ℝ) : ℕ → ℕ → ℕ
  | 0, i => i
  | fuel + 1, i =>
    if (if i = 0 then 0 else wlast i) < thresh then
      frfNumModes wlast thresh fuel (i + 1)
    else i

/-- One mode's FRF contribution, lines 523-524:
`a[:, i-1] = rho*A*Uin*Uout / (wn[-1]**2 - w**2 + 2*zeta*wn[-1]*w*sp.sqrt(-1))`
(`sp.sqrt(-1)` is the complex unit). -/
noncomputable def frfContrib (rho A zeta wk Uin Uout w : ℝ) : ℂ :=
  (rho * A * Uin * Uout : ℝ) /
    ((wk ^ 2 - w ^ 2 : ℝ) + (2 * zeta * wk * w : ℝ) * Complex.I)

/-- `euler_beam_frf`, parametrized over the interpolation collaborator
`spline` (the source's `UnivariateSpline(xx, U[:, i-1])` evaluated at a query
position): given the sampled positions, the sampled mode-shape values and the
query position it returns the interpolated value. Returns `none` when a
location is off the beam (the source prints and returns nothing); otherwise
`(fout, K, H)`: the frequency axis in Hz, the number of accumulated modes,
and the contribution matrix `a[:, 0:K]` (indexed column-first: `H (k-1) j` is
mode `k`'s contribution at frequency index `j`). Each iteration `i` calls
`euler_beam_modes(i, bctype, beamparams, 5000)`, so mode `i` sits at request
position `i - 1` and `wn[-1]` is that position's frequency. -/
noncomputable def euler_beam_frf (xin xout fmin fmax zeta : ℝ) (p : BeamParams)
    (bctype : ℕ) (spline : (ℕ → ℝ) → (ℕ → ℝ) → ℝ → ℝ) :
    Option ((ℕ → ℝ) × ℕ × (ℕ → ℕ → ℂ)) :=
  if min xin xout < 0 ∨ max xin xout > p.L then none
  else
    let thresh := 1.3 * (fmax * 2 * Real.pi)
    let wlast : ℕ → ℝ := fun i => (euler_beam_modes (Sum.inl i) bctype p 5000).1 (i - 1)
    let K := frfNumModes wlast thresh 100 0
    some
      (fun j => fmin + (fmax - fmin) * (j : ℝ) / 2000,
       K,
       fun col j =>
         let modes := euler_beam_modes (Sum.inl (col + 1)) bctype p 5000
         let Uin := spline modes.2.1 (fun jj => modes.2.2 col jj) xin
         let Uout := spline modes.2.1 (fun jj => modes.2.2 col jj) xout
         frfContrib p.rho p.A zeta (wlast (col + 1)) Uin Uout (freqGrid fmin fmax j))

/-! ## Helper lemmas -/

lemma getD_map_range (N i : ℕ) (h : i < N) :
    ((List.range N).map (· + 1)).getD i 0 = i + 1 := by
  rw [List.getD_eq_getElem?_getD]
  simp [List.getElem?_map, List.getElem?_range, h]

lemma sin_arctan2 (y x : ℝ) :
    Real.sin (arctan2 y x) = y / Real.sqrt (x ^ 2 + y ^ 2) := by
  rw [arctan2, Complex.sin_arg]
  simp [Complex.abs_apply, Complex.normSq_mk, sq]

lemma cos_arctan2 (y x : ℝ) (h : ¬(x = 0 ∧ y = 0)) :
    Real.cos (arctan2 y x) = x / Real.sqrt (x ^ 2 + y ^ 2) := by
  rw [arctan2, Complex.cos_arg]
  · simp [Complex.abs_apply, Complex.normSq_mk, sq]
  · simp only [ne_eq, Complex.ext_iff, Complex.zero_re, Complex.zero_im]
    tauto

/-! ## C3: the Euler integrator -/

/-- C3: `euler` returns a time series of length `n + 1` whose state 0 is
`(x0, v0)` and which advances by `x[i+1] = x[i] + dt * A @ x[i]` with
`A = [[0, 1], [-k/m, -c/m]]`; on the doctest input
`(m, c, k, x0, v0, n, dt) = (1, 0.1, 1, 1, 0, 8, 0.05)` the final state
agrees with `[0.93112922, -0.3861739]` to within `10⁻⁷` (exact rational
arithmetic). -/
theorem euler_time_series (m c k x0 v0 dt : ℝ) (n : ℕ)
    (hm : 0 < m) (hc : 0 ≤ c) (hk : 0 < k) (hn : 0 < n) (hdt : 0 < dt) :
    ((euler m c k x0 v0 n dt).2.length = n + 1 ∧
      (euler m c k x0 v0 n dt).2.get? 0 = some (x0, v0) ∧
      (∀ i ≤ n, (euler m c k x0 v0 n dt).2.get? i = some (eulerX m c k x0 v0 dt i)) ∧
      ∀ i, eulerX m c k x0 v0 dt (i + 1) =
        eulerX m c k x0 v0 dt i +
          dt • ((eulerX m c k x0 v0 dt i).2,
            -(k / m) * (eulerX m c k x0 v0 dt i).1 -
              (c / m) * (eulerX m c k x0 v0 dt i).2)) ∧
    |(eulerX (α := ℚ) 1 (1/10) 1 1 0 (1/20) 8).1 - 0.93112922| < 1 / 10 ^ 7 ∧
    |(eulerX (α := ℚ) 1 (1/10) 1 1 0 (1/20) 8).2 - (-0.3861739)| < 1 / 10 ^ 7 := by
  refine ⟨⟨?_, ?_, ?_, ?_⟩, ?_, ?_⟩
  · simp [euler]
  · simp [euler, List.get?_map, List.get?_range, Nat.succ_pos, eulerX]
  · intro i hi
    simp [euler, List.get?_map, List.get?_range, Nat.lt_succ_of_le hi]
  · intro i
    rfl
  · norm_num [eulerX, eulerStep, Amat, Prod.smul_mk, Prod.mk_add_mk, abs_lt]
  · norm_num [eulerX, eulerStep, Amat, Prod.smul_mk, Prod.mk_add_mk, abs_lt]

/-- C3 witness: the theorem instantiated at the doctest input. -/
theorem euler_time_series_witness :
    (((euler (α := ℝ) 1 0.1 1 1 0 8 0.05).2.length = 8 + 1 ∧
      (euler (α := ℝ) 1 0.1 1 1 0 8 0.05).2.get? 0 = some (1, 0) ∧
      (∀ i ≤ 8, (euler (α := ℝ) 1 0.1 1 1 0 8 0.05).2.get? i =
        some (eulerX (α := ℝ) 1 0.1 1 1 0 0.05 i)) ∧
      ∀ i, eulerX (α := ℝ) 1 0.1 1 1 0 0.05 (i + 1) =
        eulerX (α := ℝ) 1 0.1 1 1 0 0.05 i +
          (0.05 : ℝ) • ((eulerX (α := ℝ) 1 0.1 1 1 0 0.05 i).2,
            -((1 : ℝ) / 1) * (eulerX (α := ℝ) 1 0.1 1 1 0 0.05 i).1 -
              ((0.1 : ℝ) / 1) * (eulerX (α := ℝ) 1 0.1 1 1 0 0.05 i).2)) ∧
    |(eulerX (α := ℚ) 1 (1/10) 1 1 0 (1/20) 8).1 - 0.93112922| < 1 / 10 ^ 7 ∧
    |(eulerX (α := ℚ) 1 (1/10) 1 1 0 (1/20) 8).2 - (-0.3861739)| < 1 / 10 ^ 7) :=
  euler_time_series 1 0.1 1 1 0 0.05 8 (by norm_num) (by norm_num) (by norm_num)
    (by norm_num) (by norm_num)

/-! ## C4: the Runge-Kutta integrator -/

set_option maxHeartbeats 1000000 in
/-- C4: `rk4` returns a time series of length `n + 1` whose state 0 is
`(x0, v0)` and which advances by the classical four-stage update
`x[i+1] = x[i] + (k1 + 2*k2 + 2*k3 + k4)/6` with `k1 = dt*f(x[i])`,
`k2 = dt*f(x[i] + k1/2)`, `k3 = dt*f(x[i] + k2/2)`, `k4 = dt*f(x[i] + k3)`
and `f(x) = A @ x`; on the doctest input
`(m, c, k, x0, v0, n, dt) = (1, 0.1, 1, 1, 0, 8, 0.05)` the final state
agrees with `[0.92210029, -0.38173305]` to within `10⁻⁷` (exact rational
arithmetic). -/
theorem rk4_time_series (m c k x0 v0 dt : ℝ) (n : ℕ)
    (hm : 0 < m) (hc : 0 ≤ c) (hk : 0 < k) (hn : 0 < n) (hdt : 0 < dt) :
    ((rk4 m c k x0 v0 n dt).2.length = n + 1 ∧
      (rk4 m c k x0 v0 n dt).2.get? 0 = some (x0, v0) ∧
      (∀ i ≤ n, (rk4 m c k x0 v0 n dt).2.get? i = some (rk4X m c k x0 v0 dt i)) ∧
      ∀ i, rk4X m c k x0 v0 dt (i + 1) =
        rk4X m c k x0 v0 dt i +
          (6 : ℝ)⁻¹ • (rk4k1 m c k dt (rk4X m c k x0 v0 dt i) +
            (2 : ℝ) • rk4k2 m c k dt (rk4X m c k x0 v0 dt i) +
            (2 : ℝ) • rk4k3 m c k dt (rk4X m c k x0 v0 dt i) +
            rk4k4 m c k dt (rk4X m c k x0 v0 dt i))) ∧
    |(rk4X (α := ℚ) 1 (1/10) 1 1 0 (1/20) 8).1 - 0.92210029| < 1 / 10 ^ 7 ∧
    |(rk4X (α := ℚ) 1 (1/10) 1 1 0 (1/20) 8).2 - (-0.38173305)| < 1 / 10 ^ 7 := by
  refine ⟨⟨?_, ?_, ?_, ?_⟩, ?_, ?_⟩
  · simp [rk4]
  · simp [rk4, List.getElem?_map, List.getElem?_range, Nat.succ_pos, rk4X]
  · intro i hi
    simp [rk4, List.getElem?_map, List.getElem?_range, Nat.lt_succ_of_le hi]
  · intro i
    show rk4Step m c k dt (rk4X m c k x0 v0 dt i) = _
    generalize rk4X m c k x0 v0 dt i = s
    obtain ⟨x, v⟩ := s
    simp only [rk4Step, rk4k1, rk4k2, rk4k3, rk4k4, Amat, Prod.smul_mk,
      Prod.mk_add_mk, Prod.mk.injEq, smul_eq_mul]
    constructor <;> ring
  · norm_num [rk4X, rk4Step, Amat, Prod.smul_mk, Prod.mk_add_mk, abs_lt]
  · norm_num [rk4X, rk4Step, Amat, Prod.smul_mk, Prod.mk_add_mk, abs_lt]

/-- C4 witness: the theorem instantiated at the doctest input. -/
theorem rk4_time_series_witness :
    (((rk4 (α := ℝ) 1 0.1 1 1 0 8 0.05).2.length = 8 + 1 ∧
      (rk4 (α := ℝ) 1 0.1 1 1 0 8 0.05).2.get? 0 = some (1, 0) ∧
      (∀ i ≤ 8, (rk4 (α := ℝ) 1 0.1 1 1 0 8 0.05).2.get? i =
        some (rk4X (α := ℝ) 1 0.1 1 1 0 0.05 i)) ∧
      ∀ i, rk4X (α := ℝ) 1 0.1 1 1 0 0.05 (i + 1) =
        rk4X (α := ℝ) 1 0.1 1 1 0 0.05 i +
          (6 : ℝ)⁻¹ • (rk4k1 (α := ℝ) 1 0.1 1 0.05 (rk4X (α := ℝ) 1 0.1 1 1 0 0.05 i) +
            (2 : ℝ) • rk4k2 (α := ℝ) 1 0.1 1 0.05 (rk4X (α := ℝ) 1 0.1 1 1 0 0.05 i) +
            (2 : ℝ) • rk4k3 (α := ℝ) 1 0.1 1 0.05 (rk4X (α := ℝ) 1 0.1 1 1 0 0.05 i) +
            rk4k4 (α := ℝ) 1 0.1 1 0.05 (rk4X (α := ℝ) 1 0.1 1 1 0 0.05 i))) ∧
    |(rk4X (α := ℚ) 1 (1/10) 1 1 0 (1/20) 8).1 - 0.92210029| < 1 / 10 ^ 7 ∧
    |(rk4X (α := ℚ) 1 (1/10) 1 1 0 (1/20) 8).2 - (-0.38173305)| < 1 / 10 ^ 7) :=
  rk4_time_series 1 0.1 1 1 0 0.05 8 (by norm_num) (by norm_num) (by norm_num)
    (by norm_num) (by norm_num)

/-! ## C1: pinned-pinned eigenvalues and natural frequencies -/

/-- C1: for the pinned-pinned boundary condition (`bctype = 6`), positive beam
parameters and any requested mode index `1 ≤ n ≤ N`, the eigenvalue computed
by `euler_beam_modes` is exactly `n * π` and the returned natural frequency at
request position `n - 1` is `(n*π)² * sqrt(E*I/(rho*A*L⁴))`. -/
theorem pinned_pinned_beta_omega (p : BeamParams)
    (hE : 0 < p.E) (hI : 0 < p.I) (hrho : 0 < p.rho) (hA : 0 < p.A) (hL : 0 < p.L)
    (N n npoints : ℕ) (h1 : 1 ≤ n) (hN : n ≤ N) :
    beamBnl 6 (n - 1) n = (n : ℝ) * Real.pi ∧
    (euler_beam_modes (Sum.inl N) 6 p npoints).1 (n - 1) =
      ((n : ℝ) * Real.pi) ^ 2 * Real.sqrt (p.E * p.I / (p.rho * p.A * p.L ^ 4)) := by
  have hget : (requestedIndices (Sum.inl N)).getD (n - 1) 0 = n := by
    have h' : n - 1 < N := by omega
    have h'' := getD_map_range N (n - 1) h'
    simpa [requestedIndices, Nat.sub_add_cancel h1] using h''
  refine ⟨by simp [beamBnl], ?_⟩
  have hproj : (euler_beam_modes (Sum.inl N) 6 p npoints).1 (n - 1) =
      beamW p 6 (n - 1) n := by
    simp only [euler_beam_modes]
    rw [hget]
  rw [hproj]
  simp [beamW, omegaOf, beamBnl]

/-- C1 witness: the unit beam, scalar request `N = 3`, mode `n = 2`. -/
theorem pinned_pinned_beta_omega_witness :
    beamBnl 6 (2 - 1) 2 = ((2 : ℕ) : ℝ) * Real.pi ∧
    (euler_beam_modes (Sum.inl 3) 6 ⟨1, 1, 1, 1, 1⟩ 5).1 (2 - 1) =
      (((2 : ℕ) : ℝ) * Real.pi) ^ 2 *
        Real.sqrt ((1 : ℝ) * 1 / (1 * 1 * 1 ^ 4)) :=
  pinned_pinned_beta_omega ⟨1, 1, 1, 1, 1⟩ (by norm_num) (by norm_num) (by norm_num)
    (by norm_num) (by norm_num) 3 2 5 (by norm_num) (by norm_num)

/-! ## C7: scalar count versus explicit list requests -/

/-- C7 (code bug): requesting the clamped-free beam's mode 2 as the explicit
list `[2]` reads the low-mode root table at list position 0 and so uses mode
1's eigenvalue 1.88 (frequency `1.88²` on the unit beam), while the scalar
request `n = 2` returns mode 2's eigenvalue 4.69 (frequency `4.69²`) for the
same mode index: the two request forms disagree. -/
theorem clamped_free_list_lookup_bug :
    (euler_beam_modes (Sum.inr [2]) 2 ⟨1, 1, 1, 1, 1⟩ 3).1 0 = (1.88 : ℝ) ^ 2 ∧
    (euler_beam_modes (Sum.inl 2) 2 ⟨1, 1, 1, 1, 1⟩ 3).1 1 = (4.69 : ℝ) ^ 2 ∧
    (1.88 : ℝ) ^ 2 ≠ (4.69 : ℝ) ^ 2 := by
  refine ⟨?_, ?_, by norm_num⟩
  · show beamW ⟨1, 1, 1, 1, 1⟩ 2 0 (([2] : List ℕ).getD 0 0) = (1.88 : ℝ) ^ 2
    norm_num [beamW, omegaOf, beamBnl, BnllowCF, Real.sqrt_one]
  · show beamW ⟨1, 1, 1, 1, 1⟩ 2 1
      ((((List.range 2).map (· + 1)) : List ℕ).getD 1 0) = (4.69 : ℝ) ^ 2
    norm_num [beamW, omegaOf, beamBnl, BnllowCF, Real.sqrt_one, List.range_succ]

/-! ## C6: resonance in the undamped forced response -/

/-- C6 (code bug): at resonance (`m = k = 1`, so `w = 1 = wdr`) the
denominator `w² - wdr²` of `forced_analytical` is zero and the function
performs the division anyway, returning a trajectory for every `t` (in the
real-number model the forcing term collapses to the homogeneous solution; in
floating point it is `inf`/`NaN`): no resonance check exists and no typed
failure is reported. -/
theorem forced_analytical_resonance_no_failure :
    Real.sqrt ((1 : ℝ) / 1) ^ 2 - (1 : ℝ) ^ 2 = 0 ∧
    ∀ x0 v0 F0 t : ℝ, forced_analytical 1 1 x0 v0 1 F0 t =
      v0 * Real.sin t + x0 * Real.cos t := by
  constructor
  · norm_num [Real.sqrt_one]
  · intro x0 v0 F0 t
    norm_num [forced_analytical, Real.sqrt_one]

/-! ## C10: the two amplitude formulas agree -/

/-- C10: for `zeta < 1` (and positive mass and stiffness) the amplitude
`sqrt(x0² + (v0 + omega*zeta*x0)²/omega_d²)` of `free_response` equals the
amplitude `sqrt(((v0 + zeta*w*x0)² + (x0*wd)²)/wd²)` of `analytical`. -/
theorem free_response_analytical_amplitude (m c k x0 v0 : ℝ)
    (hm : 0 < m) (hc : 0 ≤ c) (hk : 0 < k)
    (hz : c / (2 * Real.sqrt (k / m) * m) < 1) :
    free_response_A m c k x0 v0 = analytical_A m c k x0 v0 := by
  have hw : 0 < Real.sqrt (k / m) := Real.sqrt_pos.mpr (div_pos hk hm)
  set w := Real.sqrt (k / m) with hwdef
  have hzeq : c / 2 / w / m = c / (2 * w * m) := by ring
  have hz0 : 0 ≤ c / (2 * w * m) := by positivity
  have h1z : 0 < 1 - (c / (2 * w * m)) ^ 2 := by nlinarith
  have hwd : 0 < w * Real.sqrt (1 - (c / (2 * w * m)) ^ 2) :=
    mul_pos hw (Real.sqrt_pos.mpr h1z)
  have hwdne : w * Real.sqrt (1 - (c / (2 * w * m)) ^ 2) ≠ 0 := ne_of_gt hwd
  simp only [free_response_A, analytical_A]
  rw [hzeq]
  congr 1
  rw [add_div, mul_pow x0, mul_div_cancel_right₀ _ (pow_ne_zero 2 hwdne)]
  ring

/-- C10 witness: `m = c = k = 1`, `x0 = 1`, `v0 = 0` (`zeta = 1/2`). -/
theorem free_response_analytical_amplitude_witness :
    free_response_A 1 1 1 1 0 = analytical_A 1 1 1 1 0 :=
  free_response_analytical_amplitude 1 1 1 1 0 (by norm_num) (by norm_num)
    (by norm_num) (by norm_num [Real.sqrt_one])

/-! ## C5: the critical-damping branch -/

/-- C5: when `c = 2*sqrt(k*m)` exactly (so `zeta = 1`), `analytical` takes the
critical-damping branch and returns `(a1 + a2*t)*e^(-w*t)` with `a1 = x0`,
`a2 = v0 + w*x0`, `w = sqrt(k/m)`, at every time `t`. -/
theorem analytical_critical_branch (m c k x0 v0 t : ℝ)
    (hm : 0 < m) (hk : 0 < k) (hc : c = 2 * Real.sqrt (k * m)) :
    analytical m c k x0 v0 t =
      (x0 + (v0 + Real.sqrt (k / m) * x0) * t) * Real.exp (-Real.sqrt (k / m) * t) := by
  have hsq : Real.sqrt (k / m) * m = Real.sqrt (k * m) := by
    calc Real.sqrt (k / m) * m
        = Real.sqrt (k / m) * Real.sqrt (m * m) := by rw [Real.sqrt_mul_self hm.le]
      _ = Real.sqrt (k / m * (m * m)) := (Real.sqrt_mul (by positivity) _).symm
      _ = Real.sqrt (k * m) := by rw [show k / m * (m * m) = k * m by field_simp; ring]
  have hzeta : c / (2 * Real.sqrt (k / m) * m) = 1 := by
    rw [hc, mul_assoc, hsq]
    exact div_self (by positivity)
  simp only [analytical]
  rw [hzeta]
  norm_num [criticalX]

/-- C5 witness: `m = k = 1`, `c = 2`, `x0 = 1`, `v0 = 0`, `t = 1`. -/
theorem analytical_critical_branch_witness :
    analytical 1 2 1 1 0 1 =
      ((1 : ℝ) + ((0 : ℝ) + Real.sqrt ((1 : ℝ) / 1) * 1) * 1) *
        Real.exp (-Real.sqrt ((1 : ℝ) / 1) * 1) :=
  analytical_critical_branch 1 2 1 1 0 1 (by norm_num) (by norm_num)
    (by norm_num [Real.sqrt_one])

/-! ## C2: the mass-normalization invariant -/

/-- C2 counterexample: for the free-free rigid-body mode `n = 1` on the unit
beam (`E = I = rho = A = L = 1`) with the source's default `npoints = 2001`,
the discrete quadrature of `∫ rho*A*U²dx` over the returned normalized mode
shape equals `1/2000`, which is not 1 within any reasonable quadrature
tolerance. -/
theorem mass_quadrature_not_one :
    specMassQuadrature ⟨1, 1, 1, 1, 1⟩ 2001
      ((euler_beam_modes (Sum.inl 1) 1 ⟨1, 1, 1, 1, 1⟩ 2001).2.2 0) = 1 / 2000 ∧
    ¬ |(1 : ℝ) / 2000 - 1| ≤ 1 / 2 := by
  have hUraw : ∀ j, beamUraw 1 0 1 2001 j = 1 := fun j => by simp [beamUraw]
  have hsum : (∑ j ∈ Finset.range 2001, beamUraw 1 0 1 2001 j ^ 2) = 2001 := by
    simp [hUraw]
  have hcol : ∀ j, (euler_beam_modes (Sum.inl 1) 1 ⟨1, 1, 1, 1, 1⟩ 2001).2.2 0 j =
      1 / Real.sqrt 2001 := by
    intro j
    show beamUnorm ⟨1, 1, 1, 1, 1⟩ 1 0 (((List.range 1).map (· + 1)).getD 0 0) 2001 j =
      1 / Real.sqrt 2001
    simp [beamUnorm, hUraw, hsum]
  constructor
  · have hsq : (1 / Real.sqrt 2001 : ℝ) ^ 2 = 1 / 2001 := by
      rw [div_pow, one_pow, Real.sq_sqrt (by norm_num : (0 : ℝ) ≤ 2001)]
    simp only [specMassQuadrature, hcol, hsq]
    rw [Finset.sum_const, Finset.card_range, nsmul_eq_mul]
    norm_num
  · rw [abs_of_nonpos (by norm_num : (1 : ℝ) / 2000 - 1 ≤ 0)]
    norm_num

/-- C2 amended: the source's normalization makes `(∑_j U_j²)*rho*A*L = 1`
exactly for every returned mode of every boundary condition (whenever the
unnormalized sum of squares is positive), so the discrete quadrature of
`∫ rho*A*U²dx` (spacing `L/(npoints-1)`) equals `1/(npoints-1)`, not 1. -/
theorem mass_normalization_exact (p : BeamParams) (n : ℕ ⊕ List ℕ)
    (bctype i npoints : ℕ) (hrho : 0 < p.rho) (hA : 0 < p.A) (hL : 0 < p.L)
    (hS : 0 < ∑ j ∈ Finset.range npoints,
      beamUraw bctype i ((requestedIndices n).getD i 0) npoints j ^ 2) :
    (∑ j ∈ Finset.range npoints,
        (euler_beam_modes n bctype p npoints).2.2 i j ^ 2) * p.rho * p.A * p.L = 1 ∧
    specMassQuadrature p npoints ((euler_beam_modes n bctype p npoints).2.2 i) =
      1 / ((npoints : ℝ) - 1) := by
  set ni := (requestedIndices n).getD i 0 with hni
  set S := ∑ j ∈ Finset.range npoints, beamUraw bctype i ni npoints j ^ 2 with hSdef
  have hSpos : 0 < S := hS
  have hprod : 0 < S * p.rho * p.A * p.L := by positivity
  have hD : Real.sqrt (S * p.rho * p.A * p.L) ^ 2 = S * p.rho * p.A * p.L :=
    Real.sq_sqrt hprod.le
  have hcol : (euler_beam_modes n bctype p npoints).2.2 i =
      fun j => beamUraw bctype i ni npoints j / Real.sqrt (S * p.rho * p.A * p.L) :=
    rfl
  have hsum2 : (∑ j ∈ Finset.range npoints,
      (euler_beam_modes n bctype p npoints).2.2 i j ^ 2) =
      S / (S * p.rho * p.A * p.L) := by
    rw [hcol]
    simp only [div_pow, ← Finset.sum_div, hD, hSdef]
  constructor
  · rw [hsum2]
    calc S / (S * p.rho * p.A * p.L) * p.rho * p.A * p.L
        = S * p.rho * p.A * p.L / (S * p.rho * p.A * p.L) := by ring
      _ = 1 := div_self (ne_of_gt hprod)
  · show p.rho * p.A * (∑ j ∈ Finset.range npoints,
        (euler_beam_modes n bctype p npoints).2.2 i j ^ 2) *
        (p.L / ((npoints : ℝ) - 1)) = 1 / ((npoints : ℝ) - 1)
    rw [hsum2]
    calc p.rho * p.A * (S / (S * p.rho * p.A * p.L)) * (p.L / ((npoints : ℝ) - 1))
        = S * p.rho * p.A * p.L / (S * p.rho * p.A * p.L) * (1 / ((npoints : ℝ) - 1)) := by
          ring
      _ = 1 * (1 / ((npoints : ℝ) - 1)) := by rw [div_self (ne_of_gt hprod)]
      _ = 1 / ((npoints : ℝ) - 1) := one_mul _

/-- C2 witness for the amended statement: the unit beam, free-free, mode 1,
`npoints = 3`. -/
theorem mass_normalization_exact_witness :
    (∑ j ∈ Finset.range 3,
        (euler_beam_modes (Sum.inl 1) 1 ⟨1, 1, 1, 1, 1⟩ 3).2.2 0 j ^ 2) *
        (1 : ℝ) * 1 * 1 = 1 ∧
    specMassQuadrature ⟨1, 1, 1, 1, 1⟩ 3
        ((euler_beam_modes (Sum.inl 1) 1 ⟨1, 1, 1, 1, 1⟩ 3).2.2 0) =
      1 / (((3 : ℕ) : ℝ) - 1) :=
  mass_normalization_exact ⟨1, 1, 1, 1, 1⟩ (Sum.inl 1) 1 0 3 (by norm_num)
    (by norm_num) (by norm_num)
    (by simp [requestedIndices, beamUraw])

/-! ## C9: underdamped initial conditions -/

/-- The underdamped closed form in abstract shape: at `t = 0` the value is
`Q/wd` and the derivative is `b*(Q/wd) + P`, where `P, Q` are the two
components entering the amplitude and phase. -/
lemma sinusoid_ic (P Q wd b : ℝ) (hwd : 0 < wd) :
    Real.sqrt ((P ^ 2 + Q ^ 2) / wd ^ 2) * Real.exp (b * 0) *
        Real.sin (wd * 0 + arctan2 Q P) = Q / wd ∧
    HasDerivAt (fun t => Real.sqrt ((P ^ 2 + Q ^ 2) / wd ^ 2) * Real.exp (b * t) *
        Real.sin (wd * t + arctan2 Q P)) (b * (Q / wd) + P) 0 := by
  have hS : (0 : ℝ) ≤ P ^ 2 + Q ^ 2 := by positivity
  have hA : Real.sqrt ((P ^ 2 + Q ^ 2) / wd ^ 2) = Real.sqrt (P ^ 2 + Q ^ 2) / wd := by
    rw [Real.sqrt_div hS, Real.sqrt_sq hwd.le]
  have hAsin : Real.sqrt ((P ^ 2 + Q ^ 2) / wd ^ 2) * Real.sin (arctan2 Q P) = Q / wd := by
    rw [hA, sin_arctan2]
    rcases eq_or_ne (P ^ 2 + Q ^ 2) 0 with h0 | h0
    · have hQ0 : Q = 0 := by nlinarith [sq_nonneg P, sq_nonneg Q]
      simp [hQ0]
    · have hspos : 0 < Real.sqrt (P ^ 2 + Q ^ 2) :=
        Real.sqrt_pos.mpr (lt_of_le_of_ne hS (Ne.symm h0))
      field_simp
      ring
  have hAcos : Real.sqrt ((P ^ 2 + Q ^ 2) / wd ^ 2) * Real.cos (arctan2 Q P) = P / wd := by
    rcases eq_or_ne (P ^ 2 + Q ^ 2) 0 with h0 | h0
    · have hP0 : P = 0 := by nlinarith [sq_nonneg P, sq_nonneg Q]
      have hQ0 : Q = 0 := by nlinarith [sq_nonneg P, sq_nonneg Q]
      rw [hA]
      simp [hP0, hQ0]
    · have hne : ¬(P = 0 ∧ Q = 0) := by
        rintro ⟨hP0, hQ0⟩
        rw [hP0, hQ0] at h0
        norm_num at h0
      have hspos : 0 < Real.sqrt (P ^ 2 + Q ^ 2) :=
        Real.sqrt_pos.mpr (lt_of_le_of_ne hS (Ne.symm h0))
      rw [hA, cos_arctan2 _ _ hne]
      field_simp
      ring
  constructor
  · simp only [mul_zero, Real.exp_zero, mul_one, zero_add]
    exact hAsin
  · have hder : HasDerivAt
        (fun t => Real.sqrt ((P ^ 2 + Q ^ 2) / wd ^ 2) * Real.exp (b * t) *
          Real.sin (wd * t + arctan2 Q P))
        (Real.sqrt ((P ^ 2 + Q ^ 2) / wd ^ 2) * (Real.exp (b * 0) * (b * 1)) *
            Real.sin (wd * 0 + arctan2 Q P) +
          Real.sqrt ((P ^ 2 + Q ^ 2) / wd ^ 2) * Real.exp (b * 0) *
            (Real.cos (wd * 0 + arctan2 Q P) * (wd * 1))) 0 :=
      (((hasDerivAt_id (0 : ℝ)).const_mul b).exp.const_mul _).mul
        ((((hasDerivAt_id (0 : ℝ)).const_mul wd).add_const _).sin)
    have hval : Real.sqrt ((P ^ 2 + Q ^ 2) / wd ^ 2) * (Real.exp (b * 0) * (b * 1)) *
          Real.sin (wd * 0 + arctan2 Q P) +
        Real.sqrt ((P ^ 2 + Q ^ 2) / wd ^ 2) * Real.exp (b * 0) *
          (Real.cos (wd * 0 + arctan2 Q P) * (wd * 1)) =
        b * (Q / wd) + P := by
      simp only [mul_zero, Real.exp_zero, mul_one, one_mul, zero_add]
      calc Real.sqrt ((P ^ 2 + Q ^ 2) / wd ^ 2) * b * Real.sin (arctan2 Q P) +
            Real.sqrt ((P ^ 2 + Q ^ 2) / wd ^ 2) * (Real.cos (arctan2 Q P) * wd)
          = b * (Real.sqrt ((P ^ 2 + Q ^ 2) / wd ^ 2) * Real.sin (arctan2 Q P)) +
            wd * (Real.sqrt ((P ^ 2 + Q ^ 2) / wd ^ 2) * Real.cos (arctan2 Q P)) := by
            ring
        _ = b * (Q / wd) + wd * (P / wd) := by rw [hAsin, hAcos]
        _ = b * (Q / wd) + P := by
            rw [mul_comm wd, div_mul_cancel₀ P (ne_of_gt hwd)]
    exact hval ▸ hder

/-- C9: for `zeta < 1` (underdamped) with positive mass and stiffness and
nonnegative damping, the closed form returned by `analytical` satisfies
`x(0) = x0` and `dx/dt(0) = v0` exactly. -/
theorem analytical_initial_conditions (m c k x0 v0 : ℝ)
    (hm : 0 < m) (hc : 0 ≤ c) (hk : 0 < k)
    (hz : c / (2 * Real.sqrt (k / m) * m) < 1) :
    analytical m c k x0 v0 0 = x0 ∧
    HasDerivAt (fun t => analytical m c k x0 v0 t) v0 0 := by
  have hw : 0 < Real.sqrt (k / m) := Real.sqrt_pos.mpr (div_pos hk hm)
  have hz0 : 0 ≤ c / (2 * Real.sqrt (k / m) * m) := by positivity
  have h1z : 0 < 1 - (c / (2 * Real.sqrt (k / m) * m)) ^ 2 := by nlinarith
  have hwd : 0 < Real.sqrt (k / m) *
      Real.sqrt (1 - (c / (2 * Real.sqrt (k / m) * m)) ^ 2) :=
    mul_pos hw (Real.sqrt_pos.mpr h1z)
  have hfun : (fun t => analytical m c k x0 v0 t) =
      fun t => underdampedX m c k x0 v0 t := by
    funext t
    simp only [analytical]
    rw [if_pos hz]
  constructor
  · rw [show analytical m c k x0 v0 0 = underdampedX m c k x0 v0 0 from
      congrFun hfun 0]
    simp only [underdampedX]
    rw [(sinusoid_ic _ _ _ _ hwd).1]
    exact mul_div_cancel_right₀ x0 (ne_of_gt hwd)
  · rw [hfun]
    simp only [underdampedX]
    convert (sinusoid_ic _ _ _ _ hwd).2 using 2
    rw [mul_div_cancel_right₀ x0 (ne_of_gt hwd)]
    ring

/-- C9 witness: `m = c = k = x0 = 1`, `v0 = 0` (`zeta = 1/2`). -/
theorem analytical_initial_conditions_witness :
    analytical 1 1 1 1 0 0 = 1 ∧
    HasDerivAt (fun t => analytical 1 1 1 1 0 t) 0 0 :=
  analytical_initial_conditions 1 1 1 1 0 (by norm_num) (by norm_num)
    (by norm_num) (by norm_num [Real.sqrt_one])

/-! ## C8: FRF mode accumulation and per-mode contribution -/

/-- The accumulation loop computes exactly `K` modes when the first `K - 1`
natural frequencies are below the threshold and mode `K`'s is not (and the
fuel suffices). -/
lemma frfNumModes_eq (wl : ℕ → ℝ) (th : ℝ) (K : ℕ) (h0 : 0 < th) (hK : 1 ≤ K)
    (hbelow : ∀ j, 1 ≤ j → j < K → wl j < th) (hcross : th ≤ wl K) :
    ∀ fuel i, i ≤ K → K ≤ i + fuel → frfNumModes wl th fuel i = K := by
  intro fuel
  induction fuel with
  | zero =>
    intro i h1 h2
    have hiK : i = K := by omega
    simp [frfNumModes, hiK]
  | succ fuel ih =>
    intro i h1 h2
    rcases eq_or_lt_of_le h1 with rfl | hlt
    · have hK0 : i ≠ 0 := by omega
      have hcond : ¬ (if i = 0 then (0 : ℝ) else wl i) < th := by
        rw [if_neg hK0]
        exact not_lt.mpr hcross
      simp only [frfNumModes]
      rw [if_neg hcond]
    · have hcond : (if i = 0 then (0 : ℝ) else wl i) < th := by
        rcases Nat.eq_zero_or_pos i with rfl | hi
        · simpa using h0
        · rw [if_neg (by omega : i ≠ 0)]
          exact hbelow i hi hlt
      simp only [frfNumModes]
      rw [if_pos hcond]
      exact ih (i + 1) (by omega) (by omega)

/-- C8: `euler_beam_frf` accumulates modes `1, 2, ..., K` exactly, where mode
`k + 1` is computed precisely while the highest computed natural frequency is
below `1.3*(2*pi*fmax)` (so `K` is the first mode at or above the threshold),
and each included mode `k = col + 1` contributes
`rho*A*U_k(x_in)*U_k(x_out) / (w_k² - w² + 2*i*zeta*w_k*w)` over the
frequency sweep, with `U_k` evaluated at `x_in`/`x_out` by the interpolation
collaborator `spline` applied to the sampled mode shape. -/
theorem euler_beam_frf_accumulation (xin xout fmin fmax zeta : ℝ) (p : BeamParams)
    (bctype : ℕ) (spline : (ℕ → ℝ) → (ℕ → ℝ) → ℝ → ℝ) (K : ℕ)
    (hx : ¬(min xin xout < 0 ∨ max xin xout > p.L))
    (hth : 0 < 1.3 * (fmax * 2 * Real.pi))
    (hK1 : 1 ≤ K) (hK100 : K ≤ 100)
    (hbelow : ∀ j, 1 ≤ j → j < K →
      (euler_beam_modes (Sum.inl j) bctype p 5000).1 (j - 1) <
        1.3 * (fmax * 2 * Real.pi))
    (hcross : 1.3 * (fmax * 2 * Real.pi) ≤
      (euler_beam_modes (Sum.inl K) bctype p 5000).1 (K - 1)) :
    euler_beam_frf xin xout fmin fmax zeta p bctype spline =
      some (fun (j : ℕ) => fmin + (fmax - fmin) * (j : ℝ) / 2000, K,
        fun col j =>
          frfContrib p.rho p.A zeta
            ((euler_beam_modes (Sum.inl (col + 1)) bctype p 5000).1 col)
            (spline (euler_beam_modes (Sum.inl (col + 1)) bctype p 5000).2.1
              (fun jj => (euler_beam_modes (Sum.inl (col + 1)) bctype p 5000).2.2 col jj)
              xin)
            (spline (euler_beam_modes (Sum.inl (col + 1)) bctype p 5000).2.1
              (fun jj => (euler_beam_modes (Sum.inl (col + 1)) bctype p 5000).2.2 col jj)
              xout)
            (freqGrid fmin fmax j)) := by
  have hKeq : frfNumModes
      (fun i => (euler_beam_modes (Sum.inl i) bctype p 5000).1 (i - 1))
      (1.3 * (fmax * 2 * Real.pi)) 100 0 = K :=
    frfNumModes_eq _ _ K hth hK1 hbelow hcross 100 0 (by omega) (by omega)
  simp only [euler_beam_frf]
  rw [if_neg hx, hKeq]
  rfl

/-- C8 witness: the unit pinned-pinned beam over `[0 Hz, 1 Hz]`: the first
mode (`w_1 = pi² > 2.6*pi`) already crosses the threshold, so `K = 1`. -/
theorem euler_beam_frf_accumulation_witness :
    euler_beam_frf (1/2) (1/2) 0 1 (1/50) ⟨1, 1, 1, 1, 1⟩ 6 (fun _ _ _ => 0) =
      some (fun (j : ℕ) => 0 + ((1 : ℝ) - 0) * (j : ℝ) / 2000, 1,
        fun col j =>
          frfContrib (1 : ℝ) 1 (1/50)
            ((euler_beam_modes (Sum.inl (col + 1)) 6 ⟨1, 1, 1, 1, 1⟩ 5000).1 col)
            ((fun _ _ _ => (0 : ℝ))
              (euler_beam_modes (Sum.inl (col + 1)) 6 ⟨1, 1, 1, 1, 1⟩ 5000).2.1
              (fun jj =>
                (euler_beam_modes (Sum.inl (col + 1)) 6 ⟨1, 1, 1, 1, 1⟩ 5000).2.2 col jj)
              (1/2))
            ((fun _ _ _ => (0 : ℝ))
              (euler_beam_modes (Sum.inl (col + 1)) 6 ⟨1, 1, 1, 1, 1⟩ 5000).2.1
              (fun jj =>
                (euler_beam_modes (Sum.inl (col + 1)) 6 ⟨1, 1, 1, 1, 1⟩ 5000).2.2 col jj)
              (1/2))
            (freqGrid 0 1 j)) :=
  euler_beam_frf_accumulation (1/2) (1/2) 0 1 (1/50) ⟨1, 1, 1, 1, 1⟩ 6
    (fun _ _ _ => 0) 1
    (by norm_num [min_self, max_self])
    (by positivity)
    (by norm_num) (by norm_num)
    (by intro j h1 h2; omega)
    (by
      have h : (euler_beam_modes (Sum.inl 1) 6 ⟨1, 1, 1, 1, 1⟩ 5000).1 0 =
          Real.pi ^ 2 := by
        show beamW ⟨1, 1, 1, 1, 1⟩ 6 0 (((List.range 1).map (· + 1)).getD 0 0) =
          Real.pi ^ 2
        norm_num [beamW, omegaOf, beamBnl, Real.sqrt_one]
      rw [show (1 : ℕ) - 1 = 0 from rfl, h]
      nlinarith [Real.pi_gt_three])
